import Mathlib

/-!
# Langton's ant canvas renderer (`src/index.js`)

A shallow embedding of the rendering glue of `index.js`.

* JavaScript numbers are modelled as exact rationals (`ℚ`); grid dimensions,
  loop counters and typed-array elements are natural numbers.
* The 2D context is modelled by the sequence of calls made on it; every
  function of the file is a state transformer on a `Page`, which holds the
  state of the simulation object and the log of all calls made so far.
* `for` loops over `0 .. n-1` are folds over `List.range n`.
-/

namespace LangtonAnt

/-! ## Module constants (lines 4-9) -/

/-- Side of a cell in pixels: the constant CELL_SIZE of line 4. -/
def CELL_SIZE : ℚ := 40

/-- Colour of the grid lines (line 5). -/
def GRID_COLOR : String := "#CCCCCC"

/-- Colour of a white cell (line 6). -/
def WHITE_COLOR : String := "#FFFFFF"

/-- Colour of the glyph (line 7). -/
def GRAY_COLOR : String := "#FF0000"

/-- Colour of a black cell (line 8). -/
def BLACK_COLOR : String := "#000000"

/-- Side of the glyph box in pixels (line 9). -/
def ANT_SIZE : ℚ := 25.6

/-! ## The imported wasm module -/

namespace Cell

/-- Modelled from the spec: the enumeration Cell of the wasm module, which is not
part of this file; the spec fixes the code 0 for White. -/
def White : Nat := 0

/-- Modelled from the spec: the enumeration Cell of the wasm module, which is not
part of this file; the spec fixes the code 1 for Black. -/
def Black : Nat := 1

end Cell

namespace Direction

/-- Modelled from the spec: the enumeration Direction of the wasm module; code 1 is
Right. -/
def Right : Nat := 1

/-- Modelled from the spec: the enumeration Direction of the wasm module; code 2 is
Down. -/
def Down : Nat := 2

/-- Modelled from the spec: the enumeration Direction of the wasm module; code 3 is
Left. -/
def Left : Nat := 3

end Direction

/-- Modelled from the spec: the simulation object `Universe` and the linear
memory exported by the wasm module, neither of which is in this file. The state
type `σ` is arbitrary; `tick` is the only operation that returns a new state,
the accessors are read-only, `cells` and `ant` return byte offsets into
`memory`, and `memory s a` is the byte stored at address `a` in state `s`. -/
structure Universe (σ : Type) where
  /-- The state built by the constructor `Universe.new()`. -/
  new : σ
  /-- The accessor `universe.width()`. -/
  width : σ → Nat
  /-- The accessor `universe.height()`. -/
  height : σ → Nat
  /-- The operation `universe.tick()`. -/
  tick : σ → σ
  /-- The accessor `universe.cells()`: a pointer to the cell bytes. -/
  cells : σ → Nat
  /-- The accessor `universe.ant()`: a pointer to the agent triple. -/
  ant : σ → Nat
  /-- The contents of `memory.buffer`, byte by byte. -/
  memory : σ → Nat → Nat

/-! ## Typed-array views -/

/-- The view `new Uint8Array(buffer, byteOffset, length)`: element `i` is the byte
at address `byteOffset + i`. The buffer is taken to be large enough for the
view. -/
def Uint8Array (buffer : Nat → Nat) (byteOffset length : Nat) : Fin length → Nat :=
  fun i => buffer (byteOffset + i.val) % 256

/-- The view `new Uint32Array(buffer, byteOffset, length)`: element `i` is the
little-endian 32-bit word at address `byteOffset + 4 * i`. The buffer is taken
to be large enough for the view and the offset to be aligned. -/
def Uint32Array (buffer : Nat → Nat) (byteOffset length : Nat) : Fin length → Nat :=
  fun i =>
    buffer (byteOffset + 4 * i.val) % 256
      + 256 * (buffer (byteOffset + 4 * i.val + 1) % 256)
      + 65536 * (buffer (byteOffset + 4 * i.val + 2) % 256)
      + 16777216 * (buffer (byteOffset + 4 * i.val + 3) % 256)

/-- The element access `view[i]` on a typed array: `none` stands for the value
`undefined` that JavaScript yields outside the view. -/
def index {n : Nat} (view : Fin n → Nat) (i : Nat) : Option Nat :=
  if h : i < n then some (view ⟨i, h⟩) else none

/-! ## SVG matrices and paths -/

/-- The affine matrix `[a c e; b d f; 0 0 1]` of the interface SVGMatrix. -/
structure SVGMatrix where
  a : ℚ
  b : ℚ
  c : ℚ
  d : ℚ
  e : ℚ
  f : ℚ
  deriving DecidableEq

namespace SVGMatrix

/-- The result of `createSVGMatrix()`: the identity. -/
def identity : SVGMatrix := ⟨1, 0, 0, 1, 0, 0⟩

/-- The method `multiply`: this matrix post-multiplied by `n`. -/
def multiply (m n : SVGMatrix) : SVGMatrix :=
  { a := m.a * n.a + m.c * n.b
    b := m.b * n.a + m.d * n.b
    c := m.a * n.c + m.c * n.d
    d := m.b * n.c + m.d * n.d
    e := m.a * n.e + m.c * n.f + m.e
    f := m.b * n.e + m.d * n.f + m.f }

/-- The method `translate(x, y)`: post-multiplication by a translation. -/
def translate (m : SVGMatrix) (x y : ℚ) : SVGMatrix :=
  m.multiply ⟨1, 0, 0, 1, x, y⟩

/-- The method `scale(sx, sy)`: post-multiplication by a scaling. The source
passes the same factor twice, so the uniform and the non-uniform reading of the
call agree. -/
def scale (m : SVGMatrix) (sx sy : ℚ) : SVGMatrix :=
  m.multiply ⟨sx, 0, 0, sy, 0, 0⟩

/-- The method `flipY()`: post-multiplication by `[1 0 0 -1 0 0]`. -/
def flipY (m : SVGMatrix) : SVGMatrix :=
  m.multiply ⟨1, 0, 0, -1, 0, 0⟩

/-- The method `rotate(angle)` for `angle = 90 * quarters` degrees:
post-multiplication by `[cos sin -sin cos 0 0]`, with the exact cosine and sine
of a multiple of a quarter turn. The source calls `rotate(90, 0)` and
`rotate(-90, 0)`; the interface takes one argument and the second is dropped. -/
def rotateQuarter (m : SVGMatrix) (quarters : Int) : SVGMatrix :=
  let cs : ℚ × ℚ :=
    if quarters % 4 = 0 then (1, 0)
    else if quarters % 4 = 1 then (0, 1)
    else if quarters % 4 = 2 then (-1, 0)
    else (0, -1)
  m.multiply ⟨cs.1, cs.2, -cs.2, cs.1, 0, 0⟩

end SVGMatrix

/-- A canvas path: built from SVG path data, or empty, or extended by a copy of
another path under a matrix (`addPath`). -/
inductive Path2D where
  | empty : Path2D
  | svg (data : String) : Path2D
  | addPath (self path : Path2D) (matrix : SVGMatrix) : Path2D
  deriving DecidableEq

/-- The glyph path of lines 14-16. -/
def ant : Path2D :=
  Path2D.svg "m0 23.931c-1.026 0.841 7.226 11.285 7.735 11.893 7.05 8.436 14.029 8.726 14.892 9.985 0.87 1.251 5.028 5.437 12.424 6.668 0.028 1.923 0.134 3.74 0.332 5.466-4.546-1.252-9.666-2.327-12.53-2.32-3.019-0.007-13.244 2.85-15.075 3.706-0.644 0.304-12.325 0.007-12.325 1.279 0 1.287 11.632 1.761 12.113 1.111 4.221 0.671 16.178-1.514 17.451-1.287 1.273 0.24 11.066 3.09 11.137 3.104 0.735 3.38 1.803 5.225 3.069 7.481-4.865-0.141-13.598 4.674-18.47 9.546-4.044 4.045-10.783 10.585-11.801 12.028-3.805 5.374-2.101 22.179 0.007 22.179 1.654 0-2.306-15.044 1.499-20.418 1.096-1.549 13.35-9.914 14.778-11.555 1.429-1.64 9.023-3.988 12.205-6.364-3.203 2.072-5.395 5.311-5.395 9.766 0 16.541 8.633 23.211 15.118 23.291 0 0 0.007 0.02 0.021 0.02h0.127c6.477-0.08 15.069-6.77 15.069-23.283 0.007-4.151-1.91-7.269-4.752-9.348 3.458 2.213 10.239 4.384 11.582 5.926 1.436 1.633 13.632 9.998 14.732 11.554 3.82 5.367-0.14 20.431 1.53 20.431 2.09 0 3.81-16.811 0-22.185-1.02-1.435-7.755-7.969-11.8-12.014-4.879-4.879-13.598-9.694-18.47-9.546 1.266-2.255 2.327-4.15 3.069-7.537 0.064-0.008 9.857-2.815 11.137-3.048s13.23 1.959 17.454 1.28c0.48 0.657 12.12 0.177 12.11-1.103 0.01-1.28-11.71-1.004-12.35-1.308-1.83-0.863-12.002-3.713-15.029-3.713-2.864 0.007-8.025 1.082-12.572 2.32 0.198-1.712 0.346-3.529 0.375-5.452 7.396-1.245 11.561-5.424 12.416-6.675 0.87-1.252 7.849-1.542 14.9-9.992 0.5-0.601 8.76-11.052 7.73-11.886-1.21-0.983-8.78 8.761-9.08 9.616-2.05 1.019-11.796 7.51-12.97 7.977-1.181 0.459-7.12 2.581-13.435 6.364-0.969-3.699-3.408-6.209-6.392-7.538 4.122-0.007 7.121-0.813 7.121-5.353 0-4.964-0.955-9.539-2.56-13.209 4.391-2.284 7.573-4.73 8.527-5.077 0.955-0.36 1.323-1.676-0.487-4.999-2.984-5.4589-6.216-10.189-6.916-9.9278-0.7 0.2758 2.567 10.911 5.367 13.202-3.316 0.587-5.494 1.662-8.259 3.578-2.178-3.295-4.978-5.275-8.068-5.325-0.007-0.007-0.014-0.028-0.021-0.021-0.029 0-0.064-0.007-0.092-0.007-3.097 0.042-5.954 2.051-8.125 5.353-2.772-1.909-4.935-3.012-8.245-3.606 2.8-2.277 6.088-12.905 5.388-13.167-0.7-0.2614-3.952 4.4338-6.936 9.893-1.818 3.33-1.422 4.674-0.467 5.02 0.962 0.354 4.144 2.8 8.535 5.084-1.612 3.663-2.567 8.252-2.567 13.216 0 4.526 2.998 5.346 7.113 5.346-2.976 1.336-5.416 3.846-6.385 7.531-6.314-3.784-12.282-5.877-13.456-6.343-1.181-0.46-10.918-7.001-12.968-8.019-0.297-0.848-7.849-10.578-9.065-9.588z"

/-- The function `transformPath2D` (lines 120-124): a fresh path to which `path`
is added under `matrix`. -/
def transformPath2D (path : Path2D) (matrix : SVGMatrix) : Path2D :=
  let p := Path2D.empty
  Path2D.addPath p path matrix

/-! ## The page: simulation state and call log -/

/-- A call on the 2D context `ctx`, or an assignment to one of its properties. -/
inductive CanvasOp where
  | beginPath : CanvasOp
  | strokeStyle (color : String) : CanvasOp
  | fillStyle (color : String) : CanvasOp
  | moveTo (x y : ℚ) : CanvasOp
  | lineTo (x y : ℚ) : CanvasOp
  | stroke : CanvasOp
  | fillRect (x y w h : ℚ) : CanvasOp
  | fill (path : Path2D) : CanvasOp
  deriving DecidableEq

/-- An observable step of the program: a call on the simulation object (with the
pointer it returned), the creation of a typed-array view or a read through one
(the view is named by its byte offset), an assignment to a canvas dimension, a
call on the 2D context, or the arming of a timer. -/
inductive Call where
  | universeNew : Call
  | universeWidth : Call
  | universeHeight : Call
  | universeTick : Call
  | universeCells (ptr : Nat) : Call
  | universeAnt (ptr : Nat) : Call
  | newUint8Array (byteOffset length : Nat) : Call
  | newUint32Array (byteOffset length : Nat) : Call
  | readUint8 (byteOffset idx : Nat) : Call
  | readUint32 (byteOffset idx : Nat) : Call
  | canvasHeight (value : ℚ) : Call
  | canvasWidth (value : ℚ) : Call
  | ctx (op : CanvasOp) : Call
  | setTimeout (delay : Nat) : Call
  deriving DecidableEq

/-- The state of the page: the state of the simulation object (its linear memory
included) and the calls made so far, oldest first. -/
structure Page (σ : Type) where
  /-- The state of the object `universe` of line 11. -/
  simulation : σ
  /-- The calls made so far, oldest first. -/
  calls : List Call

/-- Appends calls to the log, leaving the simulation state as it is. -/
def Page.emit {σ : Type} (p : Page σ) (cs : List Call) : Page σ :=
  { p with calls := p.calls ++ cs }

/-! ## The functions of `index.js` -/

/-- The value assigned to `canvas.height` (line 22). -/
def canvasHeight (height : Nat) : ℚ := (CELL_SIZE + 1) * height + 1

/-- The value assigned to `canvas.width` (line 23). -/
def canvasWidth (width : Nat) : ℚ := (CELL_SIZE + 1) * width + 1

/-- The function `drawGrid` (lines 39-56). -/
def drawGrid {σ : Type} (width height : Nat) (p : Page σ) : Page σ :=
  p.emit
    ([Call.ctx CanvasOp.beginPath, Call.ctx (CanvasOp.strokeStyle GRID_COLOR)]
      ++ (List.range (width + 1)).flatMap (fun i =>
          [Call.ctx (CanvasOp.moveTo (i * (CELL_SIZE + 1) + 1) 0),
           Call.ctx (CanvasOp.lineTo (i * (CELL_SIZE + 1) + 1)
             ((CELL_SIZE + 1) * height + 1))])
      ++ (List.range (height + 1)).flatMap (fun j =>
          [Call.ctx (CanvasOp.moveTo 0 (j * (CELL_SIZE + 1) + 1)),
           Call.ctx (CanvasOp.lineTo ((CELL_SIZE + 1) * width + 1)
             (j * (CELL_SIZE + 1) + 1))])
      ++ [Call.ctx CanvasOp.stroke])

/-- The function `getIndex` (lines 58-60); `width` is the module constant. -/
def getIndex (width : Nat) (row column : Nat) : Nat :=
  row * width + column

/-- The body of the inner loop of `drawCells` (lines 70-79) for one cell. -/
def drawCell {n : Nat} (width : Nat) (cellsPtr : Nat) (cells : Fin n → Nat)
    (row col : Nat) : List Call :=
  let idx := getIndex width row col
  [Call.readUint8 cellsPtr idx,
   Call.ctx (CanvasOp.fillStyle
     (if index cells idx = some Cell.Black then BLACK_COLOR else WHITE_COLOR)),
   Call.ctx (CanvasOp.fillRect (col * (CELL_SIZE + 1) + 1) (row * (CELL_SIZE + 1) + 1)
     CELL_SIZE CELL_SIZE)]

/-- The function `drawCells` (lines 62-84). -/
def drawCells {σ : Type} (U : Universe σ) (width height : Nat) (p : Page σ) : Page σ :=
  let cellsPtr := U.cells p.simulation
  let cells := Uint8Array (U.memory p.simulation) cellsPtr (width * height)
  p.emit
    ([Call.universeCells cellsPtr, Call.newUint8Array cellsPtr (width * height),
      Call.ctx CanvasOp.beginPath]
      ++ (List.range height).flatMap (fun row =>
          (List.range width).flatMap (fun col => drawCell width cellsPtr cells row col))
      ++ [Call.ctx CanvasOp.stroke])

/-- The matrix `m` of `drawAnt` after lines 95-103: the identity, then the base
translation of the glyph, then the scaling by 0.2. -/
def antBase (xPos yPos : Nat) : SVGMatrix :=
  let m := SVGMatrix.identity
  (m.translate
      (yPos * (CELL_SIZE + 1) + 1 + (CELL_SIZE - ANT_SIZE) / 2)
      (xPos * (CELL_SIZE + 1) + 1 + (CELL_SIZE - ANT_SIZE) / 2)).scale 0.2 0.2

/-- The matrix `m` that `drawAnt` has built when it reaches line 115: `antBase`
followed by the `switch` on the direction (lines 104-114), which has no default
case. -/
def antMatrix (xPos yPos direction : Nat) : SVGMatrix :=
  let m := antBase xPos yPos
  if direction = Direction.Right then
    (m.translate (3 * CELL_SIZE) 0).rotateQuarter 1
  else if direction = Direction.Down then
    (m.translate 0 (3.5 * CELL_SIZE)).flipY
  else if direction = Direction.Left then
    (m.translate 0 (3 * CELL_SIZE)).rotateQuarter (-1)
  else m

/-- The function `drawAnt` (lines 86-118). -/
def drawAnt {σ : Type} (U : Universe σ) (width height : Nat) (p : Page σ) : Page σ :=
  let antPtr := U.ant p.simulation
  let antInfo := Uint32Array (U.memory p.simulation) antPtr 3
  let xPos := antInfo 0
  let yPos := antInfo 1
  let direction := antInfo 2
  let p := p.emit [Call.universeAnt antPtr, Call.newUint32Array antPtr 3,
    Call.readUint32 antPtr 0, Call.readUint32 antPtr 1, Call.readUint32 antPtr 2]
  if xPos ≥ height ∨ yPos ≥ width then p
  else
    let m := antMatrix xPos yPos direction
    let path := transformPath2D ant m
    p.emit [Call.ctx (CanvasOp.fillStyle GRAY_COLOR), Call.ctx (CanvasOp.fill path)]

/-- The function `renderLoop` (lines 27-37): one frame. The timer callback that
re-enters it is represented by the logged `setTimeout`. -/
def renderLoop {σ : Type} (U : Universe σ) (width height : Nat) (p : Page σ) : Page σ :=
  let p : Page σ := { simulation := U.tick p.simulation, calls := p.calls ++ [Call.universeTick] }
  let p := drawGrid width height p
  let p := drawCells U width height p
  let p := drawAnt U width height p
  p.emit [Call.setTimeout 400]

/-- The module body up to the first paint (lines 11-25 and 126-132): the
start-up frame. -/
def startUp {σ : Type} (U : Universe σ) : Page σ :=
  let simulation := U.new
  let width := U.width simulation
  let height := U.height simulation
  let p : Page σ :=
    { simulation := simulation
      calls := [Call.universeNew, Call.universeWidth, Call.universeHeight,
        Call.canvasHeight (canvasHeight height), Call.canvasWidth (canvasWidth width)] }
  let p := drawGrid width height p
  let p := drawCells U width height p
  let p := drawAnt U width height p
  p.emit [Call.setTimeout 1000]

/-- The page after the start-up frame and `n` further frames of `renderLoop`,
with the module constants `width` and `height` read once at start-up. -/
def run {σ : Type} (U : Universe σ) : Nat → Page σ
  | 0 => startUp U
  | n + 1 => renderLoop U (U.width U.new) (U.height U.new) (run U n)

/-! ## Reading the call log -/

/-- The calls made between the page `before` and the later page `after`. -/
def callsSince {σ : Type} (before after : Page σ) : List Call :=
  after.calls.drop before.calls.length

/-- The calls on the 2D context among `cs`, in order. -/
def ctxOps (cs : List Call) : List CanvasOp :=
  cs.filterMap (fun c => match c with
    | Call.ctx op => some op
    | _ => none)

/-- The indices read through a `Uint8Array` view among `cs`, in order, each with
the byte offset of its view. -/
def uint8Reads (cs : List Call) : List (Nat × Nat) :=
  cs.filterMap (fun c => match c with
    | Call.readUint8 byteOffset idx => some (byteOffset, idx)
    | _ => none)

/-- The paths filled by `ctx.fill` among `ops`, in order. -/
def filledPaths (ops : List CanvasOp) : List Path2D :=
  ops.filterMap (fun op => match op with
    | CanvasOp.fill path => some path
    | _ => none)

/-- An axis-aligned rectangle: top-left corner, width and height. -/
structure Rect where
  x : ℚ
  y : ℚ
  w : ℚ
  h : ℚ
  deriving DecidableEq

/-- The rectangles painted by `fillRect` among `ops`, in order, each with the
fill style in force when it is painted; `style` is the fill style at the start. -/
def paintedRects : String → List CanvasOp → List (String × Rect)
  | _, [] => []
  | _, CanvasOp.fillStyle color :: ops => paintedRects color ops
  | style, CanvasOp.fillRect x y w h :: ops => (style, ⟨x, y, w, h⟩) :: paintedRects style ops
  | style, CanvasOp.beginPath :: ops => paintedRects style ops
  | style, CanvasOp.strokeStyle _ :: ops => paintedRects style ops
  | style, CanvasOp.moveTo _ _ :: ops => paintedRects style ops
  | style, CanvasOp.lineTo _ _ :: ops => paintedRects style ops
  | style, CanvasOp.stroke :: ops => paintedRects style ops
  | style, CanvasOp.fill _ :: ops => paintedRects style ops

/-- A straight line segment from `(x0, y0)` to `(x1, y1)`. -/
structure Segment where
  x0 : ℚ
  y0 : ℚ
  x1 : ℚ
  y1 : ℚ
  deriving DecidableEq

/-- The current path of the 2D context: the segments added since the last
`beginPath`, and the current point if there is one. -/
structure PathState where
  segments : List Segment
  pen : Option (ℚ × ℚ)

/-- The segments painted by the `stroke` calls among `ops`, in order, starting
from the current path `st`. A `lineTo` without a current point only sets the
point; `fillRect` and `fill(path)` leave the current path as it is. -/
def strokedSegments : PathState → List CanvasOp → List Segment
  | _, [] => []
  | _, CanvasOp.beginPath :: ops => strokedSegments ⟨[], none⟩ ops
  | st, CanvasOp.moveTo x y :: ops => strokedSegments ⟨st.segments, some (x, y)⟩ ops
  | st, CanvasOp.lineTo x y :: ops =>
    match st.pen with
    | some (px, py) => strokedSegments ⟨st.segments ++ [⟨px, py, x, y⟩], some (x, y)⟩ ops
    | none => strokedSegments ⟨st.segments, some (x, y)⟩ ops
  | st, CanvasOp.stroke :: ops => st.segments ++ strokedSegments st ops
  | st, CanvasOp.strokeStyle _ :: ops => strokedSegments st ops
  | st, CanvasOp.fillStyle _ :: ops => strokedSegments st ops
  | st, CanvasOp.fillRect _ _ _ _ :: ops => strokedSegments st ops
  | st, CanvasOp.fill _ :: ops => strokedSegments st ops

/-! ## Auxiliary definitions for the statements -/

/-- The cells in the order in which the double loop of `drawCells` visits them. -/
def cellVisits (width height : Nat) : List (Nat × Nat) :=
  (List.range height).flatMap (fun row => (List.range width).map (fun col => (row, col)))

/-- The colour and rectangle that the loop body of `drawCells` paints for a cell. -/
def cellPaint {n : Nat} (width : Nat) (cells : Fin n → Nat) (rc : Nat × Nat) :
    String × Rect :=
  (if index cells (getIndex width rc.1 rc.2) = some Cell.Black then BLACK_COLOR
    else WHITE_COLOR,
   ⟨rc.2 * (CELL_SIZE + 1) + 1, rc.1 * (CELL_SIZE + 1) + 1, CELL_SIZE, CELL_SIZE⟩)

/-- A small concrete simulation object, used to instantiate the theorems: a 3 x 2
grid whose state is the number of ticks, the agent triple at address 0 (row 1,
column 2, direction code the tick count modulo 8, so that stray codes occur) and the cell bytes at address 16,
with the cell at row 1, column 2 black and one byte with the stray code 7. -/
def demoUniverse : Universe Nat where
  new := 0
  width := fun _ => 3
  height := fun _ => 2
  tick := fun s => s + 1
  cells := fun _ => 16
  ant := fun _ => 0
  memory := fun s a =>
    if a = 0 then 1 else if a = 4 then 2 else if a = 8 then s % 8
    else if a = 21 then 1 else if a = 17 then 7 else 0

/-- A page over `demoUniverse` on which nothing has been called yet. -/
def demoPage : Page Nat := { simulation := 0, calls := [] }

/-- The rectangle that `drawCells` paints for the cell at `row`, `col`: the
arguments of its `fillRect` call (lines 74-79). -/
def cellRect (row col : Nat) : Rect :=
  ⟨col * (CELL_SIZE + 1) + 1, row * (CELL_SIZE + 1) + 1, CELL_SIZE, CELL_SIZE⟩

/-- The right edge of a rectangle. -/
def Rect.right (r : Rect) : ℚ := r.x + r.w

/-- The bottom edge of a rectangle. -/
def Rect.bottom (r : Rect) : ℚ := r.y + r.h

/-- Whether a call is a call on the simulation object `universe`. -/
def Call.onUniverse : Call → Bool
  | Call.universeNew => true
  | Call.universeWidth => true
  | Call.universeHeight => true
  | Call.universeTick => true
  | Call.universeCells _ => true
  | Call.universeAnt _ => true
  | Call.newUint8Array _ _ => false
  | Call.newUint32Array _ _ => false
  | Call.readUint8 _ _ => false
  | Call.readUint32 _ _ => false
  | Call.canvasHeight _ => false
  | Call.canvasWidth _ => false
  | Call.ctx _ => false
  | Call.setTimeout _ => false

/-- The calls on the simulation object among `cs`, in order. -/
def universeCalls (cs : List Call) : List Call :=
  cs.filter Call.onUniverse

/-- The call on the simulation object that returns the pointer a typed-array view
or a read through such a view is based on: `universe.cells()` for the
`Uint8Array` of cell bytes, `universe.ant()` for the `Uint32Array` of the agent
triple; `none` for every other call. -/
def fetchOf : Call → Option Call
  | Call.newUint8Array byteOffset _ => some (Call.universeCells byteOffset)
  | Call.readUint8 byteOffset _ => some (Call.universeCells byteOffset)
  | Call.newUint32Array byteOffset _ => some (Call.universeAnt byteOffset)
  | Call.readUint32 byteOffset _ => some (Call.universeAnt byteOffset)
  | Call.universeNew => none
  | Call.universeWidth => none
  | Call.universeHeight => none
  | Call.universeTick => none
  | Call.universeCells _ => none
  | Call.universeAnt _ => none
  | Call.canvasHeight _ => none
  | Call.canvasWidth _ => none
  | Call.ctx _ => none
  | Call.setTimeout _ => none

/-- The calls that `drawGrid` makes. -/
def gridCalls (width height : Nat) : List Call :=
  (drawGrid width height (⟨(), []⟩ : Page Unit)).calls

/-- The calls that `drawCells` makes when the simulation is in state `s`. -/
def cellsCalls {σ : Type} (U : Universe σ) (width height : Nat) (s : σ) : List Call :=
  (drawCells U width height ⟨s, []⟩).calls

/-- The calls that `drawAnt` makes when the simulation is in state `s`. -/
def antCalls {σ : Type} (U : Universe σ) (width height : Nat) (s : σ) : List Call :=
  (drawAnt U width height ⟨s, []⟩).calls

/-- The calls of one frame of `renderLoop` entered in state `s`: the tick, then the
three drawing functions on the ticked state, then the timer. -/
def frameCalls {σ : Type} (U : Universe σ) (width height : Nat) (s : σ) : List Call :=
  Call.universeTick :: (gridCalls width height ++ cellsCalls U width height (U.tick s)
    ++ antCalls U width height (U.tick s) ++ [Call.setTimeout 400])

/-- Every view and every read in `l` is based on a pointer fetched earlier in `l`
with no tick in between: whenever `l` splits as `pre ++ c :: post` and `c` needs
the fetch `f`, the calls before `c` split as `a ++ f :: b` with no `tick` in `b`. -/
def Fresh (l : List Call) : Prop :=
  ∀ pre c post f, l = pre ++ c :: post → fetchOf c = some f →
    ∃ a b, pre = a ++ f :: b ∧ Call.universeTick ∉ b

/-! ## Basic facts -/

theorem callsSince_emit {σ : Type} (p : Page σ) (cs : List Call) :
    callsSince p (p.emit cs) = cs := by
  simp [callsSince, Page.emit]

theorem ctxOps_append (xs ys : List Call) : ctxOps (xs ++ ys) = ctxOps xs ++ ctxOps ys := by
  simp [ctxOps, List.filterMap_append]

theorem uint8Reads_append (xs ys : List Call) :
    uint8Reads (xs ++ ys) = uint8Reads xs ++ uint8Reads ys := by
  simp [uint8Reads, List.filterMap_append]

theorem cellVisits_eq (width height : Nat) :
    cellVisits width height
      = (List.range (width * height)).map (fun i => (i / width, i % width)) := by
  induction height with
  | zero => simp [cellVisits]
  | succ h ih =>
    have hstep : cellVisits width (h + 1)
        = cellVisits width h ++ (List.range width).map (fun col => (h, col)) := by
      simp [cellVisits, List.range_succ, List.flatMap_append]
    rw [hstep, ih, Nat.mul_succ, List.range_add, List.map_append, List.map_map]
    congr 1
    apply List.map_congr_left
    intro c hc
    have hcw : c < width := List.mem_range.mp hc
    have hpos : 0 < width := Nat.lt_of_le_of_lt (Nat.zero_le _) hcw
    simp only [Function.comp]
    rw [Nat.mul_comm width h, Nat.add_comm (h * width) c, Nat.add_mul_div_right _ _ hpos,
      Nat.add_mul_mod_self_right, Nat.div_eq_of_lt hcw, Nat.mod_eq_of_lt hcw]
    simp

theorem drawCells_loop_eq {n : Nat} (width height cellsPtr : Nat) (cells : Fin n → Nat) :
    (List.range height).flatMap (fun row =>
        (List.range width).flatMap (fun col => drawCell width cellsPtr cells row col))
      = (cellVisits width height).flatMap
          (fun rc => drawCell width cellsPtr cells rc.1 rc.2) := by
  simp [cellVisits, List.flatMap_assoc, List.flatMap_map]

theorem uint8Reads_loop {n : Nat} (width cellsPtr : Nat) (cells : Fin n → Nat)
    (l : List (Nat × Nat)) :
    uint8Reads (l.flatMap (fun rc => drawCell width cellsPtr cells rc.1 rc.2))
      = l.map (fun rc => (cellsPtr, getIndex width rc.1 rc.2)) := by
  induction l with
  | nil => rfl
  | cons rc l ih =>
    rw [List.flatMap_cons, uint8Reads_append, ih]
    simp [uint8Reads, drawCell]

theorem paintedRects_loop {n : Nat} (width cellsPtr : Nat) (cells : Fin n → Nat)
    (l : List (Nat × Nat)) (rest : List CanvasOp)
    (hrest : ∀ style, paintedRects style rest = []) (style : String) :
    paintedRects style
        (ctxOps (l.flatMap (fun rc => drawCell width cellsPtr cells rc.1 rc.2)) ++ rest)
      = l.map (cellPaint width cells) := by
  induction l generalizing style with
  | nil => simpa [ctxOps] using hrest style
  | cons rc l ih =>
    rw [List.flatMap_cons, ctxOps_append, List.append_assoc, List.map_cons,
      ← ih (cellPaint width cells rc).1]
    rfl

theorem callsSince_drawCells {σ : Type} (U : Universe σ) (width height : Nat) (p : Page σ) :
    callsSince p (drawCells U width height p)
      = [Call.universeCells (U.cells p.simulation),
          Call.newUint8Array (U.cells p.simulation) (width * height),
          Call.ctx CanvasOp.beginPath]
        ++ (cellVisits width height).flatMap (fun rc =>
            drawCell width (U.cells p.simulation)
              (Uint8Array (U.memory p.simulation) (U.cells p.simulation) (width * height))
              rc.1 rc.2)
        ++ [Call.ctx CanvasOp.stroke] := by
  unfold drawCells
  simp only [callsSince_emit, drawCells_loop_eq]

theorem paintedRects_drawCells {σ : Type} (U : Universe σ) (width height : Nat)
    (p : Page σ) (style : String) :
    paintedRects style (ctxOps (callsSince p (drawCells U width height p)))
      = (List.range (width * height)).map (fun i =>
          cellPaint width
            (Uint8Array (U.memory p.simulation) (U.cells p.simulation) (width * height))
            (i / width, i % width)) := by
  rw [callsSince_drawCells, ctxOps_append, ctxOps_append]
  have h1 : ctxOps [Call.universeCells (U.cells p.simulation),
      Call.newUint8Array (U.cells p.simulation) (width * height),
      Call.ctx CanvasOp.beginPath] = [CanvasOp.beginPath] := rfl
  have h2 : ctxOps [Call.ctx CanvasOp.stroke] = [CanvasOp.stroke] := rfl
  rw [h1, h2, List.append_assoc, List.singleton_append, paintedRects,
    paintedRects_loop _ _ _ _ [CanvasOp.stroke] (fun _ => rfl), cellVisits_eq, List.map_map]
  rfl

theorem getIndex_div_mod (width i : Nat) : getIndex width (i / width) (i % width) = i := by
  unfold getIndex
  rw [Nat.mul_comm]
  exact Nat.div_add_mod i width

theorem getIndex_lt (width height row col : Nat) (hrow : row < height) (hcol : col < width) :
    getIndex width row col < width * height := by
  unfold getIndex
  calc row * width + col < row * width + width := Nat.add_lt_add_left hcol _
    _ = (row + 1) * width := by ring
    _ ≤ height * width := Nat.mul_le_mul_right _ hrow
    _ = width * height := Nat.mul_comm _ _

theorem getIndex_div (width row col : Nat) (hcol : col < width) :
    getIndex width row col / width = row := by
  unfold getIndex
  have hpos : 0 < width := Nat.lt_of_le_of_lt (Nat.zero_le _) hcol
  rw [Nat.add_comm, Nat.add_mul_div_right _ _ hpos, Nat.div_eq_of_lt hcol, Nat.zero_add]

theorem getIndex_mod (width row col : Nat) (hcol : col < width) :
    getIndex width row col % width = col := by
  unfold getIndex
  rw [Nat.add_comm, Nat.add_mul_mod_self_right, Nat.mod_eq_of_lt hcol]

/-! ## The drawing functions -/

theorem ctxOps_drawAnt {σ : Type} (U : Universe σ) (width height : Nat) (p : Page σ) :
    ctxOps (callsSince p (drawAnt U width height p))
      = (if Uint32Array (U.memory p.simulation) (U.ant p.simulation) 3 0 ≥ height
            ∨ Uint32Array (U.memory p.simulation) (U.ant p.simulation) 3 1 ≥ width
          then []
          else [CanvasOp.fillStyle GRAY_COLOR,
            CanvasOp.fill (transformPath2D ant
              (antMatrix (Uint32Array (U.memory p.simulation) (U.ant p.simulation) 3 0)
                (Uint32Array (U.memory p.simulation) (U.ant p.simulation) 3 1)
                (Uint32Array (U.memory p.simulation) (U.ant p.simulation) 3 2)))]) := by
  unfold drawAnt
  by_cases h : Uint32Array (U.memory p.simulation) (U.ant p.simulation) 3 0 ≥ height
      ∨ Uint32Array (U.memory p.simulation) (U.ant p.simulation) 3 1 ≥ width
  · simp only [h, if_true, callsSince_emit]
    rfl
  · simp only [h, if_false]
    simp [callsSince, Page.emit, ctxOps]

/-- C1: `drawAnt` makes no call on the 2D context (so fills no path) if and only if
the row of the agent view is at least `height` or its column is at least `width`;
in every other case it fills exactly one path, the glyph under the matrix of the
view. The agent view is the triple read through the `Uint32Array`, so the
statement ranges over every view. -/
theorem drawAnt_skips_iff {σ : Type} (U : Universe σ) (width height : Nat) (p : Page σ) :
    (filledPaths (ctxOps (callsSince p (drawAnt U width height p))) = []
      ↔ (Uint32Array (U.memory p.simulation) (U.ant p.simulation) 3 0 ≥ height
          ∨ Uint32Array (U.memory p.simulation) (U.ant p.simulation) 3 1 ≥ width))
    ∧ ctxOps (callsSince p (drawAnt U width height p))
      = (if Uint32Array (U.memory p.simulation) (U.ant p.simulation) 3 0 ≥ height
            ∨ Uint32Array (U.memory p.simulation) (U.ant p.simulation) 3 1 ≥ width
          then []
          else [CanvasOp.fillStyle GRAY_COLOR,
            CanvasOp.fill (transformPath2D ant
              (antMatrix (Uint32Array (U.memory p.simulation) (U.ant p.simulation) 3 0)
                (Uint32Array (U.memory p.simulation) (U.ant p.simulation) 3 1)
                (Uint32Array (U.memory p.simulation) (U.ant p.simulation) 3 2)))])
    ∧ (filledPaths (ctxOps (callsSince p (drawAnt U width height p)))).length
      = (if Uint32Array (U.memory p.simulation) (U.ant p.simulation) 3 0 ≥ height
            ∨ Uint32Array (U.memory p.simulation) (U.ant p.simulation) 3 1 ≥ width
          then 0 else 1) := by
  have hops := ctxOps_drawAnt U width height p
  refine ⟨?_, hops, ?_⟩
  · rw [hops]
    by_cases h : Uint32Array (U.memory p.simulation) (U.ant p.simulation) 3 0 ≥ height
        ∨ Uint32Array (U.memory p.simulation) (U.ant p.simulation) 3 1 ≥ width
    · simp [h, filledPaths]
    · simp [h, filledPaths]
  · rw [hops]
    by_cases h : Uint32Array (U.memory p.simulation) (U.ant p.simulation) 3 0 ≥ height
        ∨ Uint32Array (U.memory p.simulation) (U.ant p.simulation) 3 1 ≥ width
    · simp [h, filledPaths]
    · simp [h, filledPaths]

theorem index_Uint8Array (buffer : Nat → Nat) (byteOffset length i : Nat) (hi : i < length) :
    index (Uint8Array buffer byteOffset length) i = some (buffer (byteOffset + i) % 256) := by
  simp [index, Uint8Array, hi]

/-- C2: for positive `width` and `height`, `getIndex` is one-to-one on the pairs
with `row < height` and `column < width`, lands below `width * height`, and
reaches every index below `width * height`; the view built by `drawCells` has
`width * height` bytes, the indices `drawCells` reads through it are exactly
`0, 1, ..., width * height - 1` in this order (each once, row-major), and each
such read is inside the view and yields the byte at `cellsPtr + idx`. -/
theorem getIndex_row_major {σ : Type} (U : Universe σ) (width height : Nat) (p : Page σ)
    (hw : 0 < width) (hh : 0 < height) :
    (∀ row col row2 col2, row < height → col < width → row2 < height → col2 < width →
        getIndex width row col = getIndex width row2 col2 → row = row2 ∧ col = col2)
    ∧ (∀ row col, row < height → col < width → getIndex width row col < width * height)
    ∧ (∀ i, i < width * height →
        i / width < height ∧ i % width < width ∧ getIndex width (i / width) (i % width) = i)
    ∧ Call.newUint8Array (U.cells p.simulation) (width * height)
        ∈ callsSince p (drawCells U width height p)
    ∧ uint8Reads (callsSince p (drawCells U width height p))
        = (List.range (width * height)).map (fun i => (U.cells p.simulation, i))
    ∧ (∀ i, i < width * height →
        index (Uint8Array (U.memory p.simulation) (U.cells p.simulation) (width * height)) i
          = some (U.memory p.simulation (U.cells p.simulation + i) % 256)) := by
  have _ := hh
  refine ⟨?_, ?_, ?_, ?_, ?_, ?_⟩
  · intro row col row2 col2 _ hc _ hc2 h
    have h1 := getIndex_div width row col hc
    have h2 := getIndex_mod width row col hc
    rw [h, getIndex_div width row2 col2 hc2] at h1
    rw [h, getIndex_mod width row2 col2 hc2] at h2
    exact ⟨h1.symm, h2.symm⟩
  · intro row col hr hc
    exact getIndex_lt width height row col hr hc
  · intro i hi
    refine ⟨?_, Nat.mod_lt _ hw, getIndex_div_mod width i⟩
    rw [Nat.div_lt_iff_lt_mul hw, Nat.mul_comm]
    exact hi
  · rw [callsSince_drawCells]
    simp
  · rw [callsSince_drawCells, uint8Reads_append, uint8Reads_append, uint8Reads_loop,
      cellVisits_eq, List.map_map]
    have h1 : uint8Reads [Call.universeCells (U.cells p.simulation),
        Call.newUint8Array (U.cells p.simulation) (width * height),
        Call.ctx CanvasOp.beginPath] = [] := rfl
    have h2 : uint8Reads [Call.ctx CanvasOp.stroke] = [] := rfl
    rw [h1, h2, List.nil_append, List.append_nil]
    apply List.map_congr_left
    intro i _
    simp only [Function.comp, getIndex_div_mod]
  · intro i hi
    exact index_Uint8Array _ _ _ i hi

/-- Witness of C2 on the 3 x 2 grid of `demoUniverse`. -/
theorem getIndex_row_major_witness :
    (0 < 3 ∧ 0 < 2)
    ∧ uint8Reads (callsSince demoPage (drawCells demoUniverse 3 2 demoPage))
        = (List.range (3 * 2)).map (fun i => (demoUniverse.cells demoPage.simulation, i)) :=
  ⟨by decide,
    (getIndex_row_major demoUniverse 3 2 demoPage (by decide) (by decide)).2.2.2.2.1⟩

/-- C3: for every cell buffer and every `row < height`, `column < width`, the
rectangle that `drawCells` paints at position `row * width + column` of its
`width * height` rectangles is the `CELL_SIZE` x `CELL_SIZE` square with top-left
corner `(column * (CELL_SIZE + 1) + 1, row * (CELL_SIZE + 1) + 1)`, filled with
`BLACK_COLOR` when the byte at index `row * width + column` is `Cell.Black`
and with `WHITE_COLOR` for every other byte value; the two colours differ. -/
theorem drawCells_paints {σ : Type} (U : Universe σ) (width height : Nat) (p : Page σ)
    (style : String) (row col : Nat) (hrow : row < height) (hcol : col < width) :
    (paintedRects style (ctxOps (callsSince p (drawCells U width height p)))).length
        = width * height
    ∧ (paintedRects style
        (ctxOps (callsSince p (drawCells U width height p))))[row * width + col]?
        = some
          (if U.memory p.simulation (U.cells p.simulation + (row * width + col)) % 256
              = Cell.Black then BLACK_COLOR else WHITE_COLOR,
            ⟨col * (CELL_SIZE + 1) + 1, row * (CELL_SIZE + 1) + 1, CELL_SIZE, CELL_SIZE⟩)
    ∧ BLACK_COLOR ≠ WHITE_COLOR := by
  have hlt : row * width + col < width * height := getIndex_lt width height row col hrow hcol
  have hdiv : (row * width + col) / width = row := getIndex_div width row col hcol
  have hmod : (row * width + col) % width = col := getIndex_mod width row col hcol
  refine ⟨?_, ?_, by decide⟩
  · rw [paintedRects_drawCells]
    simp
  · rw [paintedRects_drawCells, List.getElem?_map, List.getElem?_range hlt]
    simp only [Option.map_some', cellPaint, hdiv, hmod, getIndex]
    rw [index_Uint8Array _ _ _ _ hlt]
    simp

/-- Witness of C3: the cell at row 1, column 2 of the 3 x 2 grid of
`demoUniverse`. -/
theorem drawCells_paints_witness :
    (1 < 2 ∧ 2 < 3)
    ∧ (paintedRects ""
        (ctxOps (callsSince demoPage (drawCells demoUniverse 3 2 demoPage))))[1 * 3 + 2]?
        = some
          (if demoUniverse.memory demoPage.simulation
                (demoUniverse.cells demoPage.simulation + (1 * 3 + 2)) % 256
              = Cell.Black then BLACK_COLOR else WHITE_COLOR,
            ⟨(2 : Nat) * (CELL_SIZE + 1) + 1, (1 : Nat) * (CELL_SIZE + 1) + 1,
              CELL_SIZE, CELL_SIZE⟩) :=
  ⟨by decide, (drawCells_paints demoUniverse 3 2 demoPage "" 1 2 (by decide) (by decide)).2.1⟩

theorem paintedRects_drawCells_rects {σ : Type} (U : Universe σ) (width height : Nat)
    (p : Page σ) (style : String) :
    (paintedRects style (ctxOps (callsSince p (drawCells U width height p)))).map Prod.snd
      = (List.range (width * height)).map (fun i => cellRect (i / width) (i % width)) := by
  rw [paintedRects_drawCells, List.map_map]
  rfl

/-- C7: with the canvas sized as in lines 22-23, the rectangles that `drawCells`
paints are the rectangles `cellRect` of the cells in row-major order, and for
all cells `(row, col)` and `(row2, col2)` of the grid: the rectangle of
`(row, col)` lies inside the canvas; the rectangles of two distinct cells are
separated by at least 1px along one axis, so they do not overlap; the gap between
horizontally and between vertically adjacent cells is exactly 1px; the cells of
column 0 and of row 0 are exactly 1px from the left and top edge, and the cells
of the last column and row are exactly 1px, hence at most 1px, from the right
and bottom edge. -/
theorem cells_fit_canvas {σ : Type} (U : Universe σ) (width height : Nat) (p : Page σ)
    (style : String) (row col row2 col2 : Nat)
    (hrow : row < height) (hcol : col < width) (hrow2 : row2 < height) (hcol2 : col2 < width) :
    (paintedRects style (ctxOps (callsSince p (drawCells U width height p)))).map Prod.snd
        = (List.range (width * height)).map (fun i => cellRect (i / width) (i % width))
    ∧ (0 ≤ (cellRect row col).x ∧ (cellRect row col).right ≤ canvasWidth width
        ∧ 0 ≤ (cellRect row col).y ∧ (cellRect row col).bottom ≤ canvasHeight height)
    ∧ ((row, col) ≠ (row2, col2) →
        (cellRect row col).right + 1 ≤ (cellRect row2 col2).x
          ∨ (cellRect row2 col2).right + 1 ≤ (cellRect row col).x
          ∨ (cellRect row col).bottom + 1 ≤ (cellRect row2 col2).y
          ∨ (cellRect row2 col2).bottom + 1 ≤ (cellRect row col).y)
    ∧ (col2 = col + 1 → (cellRect row2 col2).x - (cellRect row col).right = 1)
    ∧ (row2 = row + 1 → (cellRect row2 col2).y - (cellRect row col).bottom = 1)
    ∧ (cellRect row 0).x = 1
    ∧ (cellRect 0 col).y = 1
    ∧ canvasWidth width - (cellRect row (width - 1)).right = 1
    ∧ canvasHeight height - (cellRect (height - 1) col).bottom = 1 := by
  have hr : (row : ℚ) + 1 ≤ height := by exact_mod_cast hrow
  have hc : (col : ℚ) + 1 ≤ width := by exact_mod_cast hcol
  have hr0 : (0 : ℚ) ≤ row := Nat.cast_nonneg _
  have hc0 : (0 : ℚ) ≤ col := Nat.cast_nonneg _
  have hw1 : ((width - 1 : Nat) : ℚ) = (width : ℚ) - 1 := by
    have : 1 ≤ width := by omega
    push_cast [Nat.cast_sub this]
    ring
  have hh1 : ((height - 1 : Nat) : ℚ) = (height : ℚ) - 1 := by
    have : 1 ≤ height := by omega
    push_cast [Nat.cast_sub this]
    ring
  have _ := hrow2
  have _ := hcol2
  refine ⟨paintedRects_drawCells_rects U width height p style, ?_, ?_, ?_, ?_, ?_, ?_, ?_, ?_⟩
  · simp only [cellRect, Rect.right, Rect.bottom, canvasWidth, canvasHeight, CELL_SIZE]
    refine ⟨by linarith, by linarith, by linarith, by linarith⟩
  · intro hne
    simp only [cellRect, Rect.right, Rect.bottom, CELL_SIZE]
    have hcases : col + 1 ≤ col2 ∨ col2 + 1 ≤ col ∨ row + 1 ≤ row2 ∨ row2 + 1 ≤ row := by
      by_contra hcon
      apply hne
      have h1 : col = col2 := by omega
      have h2 : row = row2 := by omega
      rw [h1, h2]
    rcases hcases with h | h | h | h
    · left
      have : (col : ℚ) + 1 ≤ col2 := by exact_mod_cast h
      linarith
    · right; left
      have : (col2 : ℚ) + 1 ≤ col := by exact_mod_cast h
      linarith
    · right; right; left
      have : (row : ℚ) + 1 ≤ row2 := by exact_mod_cast h
      linarith
    · right; right; right
      have : (row2 : ℚ) + 1 ≤ row := by exact_mod_cast h
      linarith
  · intro h
    subst h
    simp only [cellRect, Rect.right, CELL_SIZE]
    push_cast
    ring
  · intro h
    subst h
    simp only [cellRect, Rect.bottom, CELL_SIZE]
    push_cast
    ring
  · simp [cellRect]
  · simp [cellRect]
  · simp only [cellRect, Rect.right, canvasWidth, CELL_SIZE, hw1]
    ring
  · simp only [cellRect, Rect.bottom, canvasHeight, CELL_SIZE, hh1]
    ring

/-- Witness of C7: the cells (0, 1) and (1, 2) of the 3 x 2 grid of
`demoUniverse`. -/
theorem cells_fit_canvas_witness :
    (0 < 2 ∧ 1 < 3 ∧ 1 < 2 ∧ 2 < 3)
    ∧ (0 ≤ (cellRect 0 1).x ∧ (cellRect 0 1).right ≤ canvasWidth 3
        ∧ 0 ≤ (cellRect 0 1).y ∧ (cellRect 0 1).bottom ≤ canvasHeight 2)
    ∧ (((0, 1) : Nat × Nat) ≠ (1, 2) →
        (cellRect 0 1).right + 1 ≤ (cellRect 1 2).x
          ∨ (cellRect 1 2).right + 1 ≤ (cellRect 0 1).x
          ∨ (cellRect 0 1).bottom + 1 ≤ (cellRect 1 2).y
          ∨ (cellRect 1 2).bottom + 1 ≤ (cellRect 0 1).y) :=
  ⟨by decide,
    (cells_fit_canvas demoUniverse 3 2 demoPage "" 0 1 1 2
      (by decide) (by decide) (by decide) (by decide)).2.1,
    (cells_fit_canvas demoUniverse 3 2 demoPage "" 0 1 1 2
      (by decide) (by decide) (by decide) (by decide)).2.2.1⟩

theorem ctxOps_flatMap {α : Type} (l : List α) (f : α → List Call) :
    ctxOps (l.flatMap f) = l.flatMap (fun x => ctxOps (f x)) := by
  induction l with
  | nil => rfl
  | cons x l ih => rw [List.flatMap_cons, List.flatMap_cons, ctxOps_append, ih]

theorem strokedSegments_lines {α : Type} (l : List α) (a b c d : α → ℚ)
    (rest : List CanvasOp) (segs : List Segment) (pen : Option (ℚ × ℚ)) :
    ∃ pen2, strokedSegments ⟨segs, pen⟩
        (l.flatMap (fun i => [CanvasOp.moveTo (a i) (b i), CanvasOp.lineTo (c i) (d i)])
          ++ rest)
      = strokedSegments ⟨segs ++ l.map (fun i => ⟨a i, b i, c i, d i⟩), pen2⟩ rest := by
  induction l generalizing segs pen with
  | nil => exact ⟨pen, by simp⟩
  | cons i l ih =>
    obtain ⟨pen2, h⟩ := ih (segs ++ [⟨a i, b i, c i, d i⟩]) (some (c i, d i))
    refine ⟨pen2, ?_⟩
    rw [List.flatMap_cons, List.append_assoc, List.map_cons]
    have hstep : strokedSegments ⟨segs, pen⟩
        ([CanvasOp.moveTo (a i) (b i), CanvasOp.lineTo (c i) (d i)]
          ++ (l.flatMap (fun i => [CanvasOp.moveTo (a i) (b i), CanvasOp.lineTo (c i) (d i)])
            ++ rest))
        = strokedSegments ⟨segs ++ [⟨a i, b i, c i, d i⟩], some (c i, d i)⟩
          (l.flatMap (fun i => [CanvasOp.moveTo (a i) (b i), CanvasOp.lineTo (c i) (d i)])
            ++ rest) := rfl
    rw [hstep, h, List.append_assoc, List.singleton_append]

/-- C10: for all `width` and `height`, and whatever the current path was before,
`drawGrid` strokes exactly `width + 1` vertical lines, the `i`-th from
`(i * (CELL_SIZE + 1) + 1, 0)` to `(i * (CELL_SIZE + 1) + 1, canvas.height)` for
`i = 0 .. width`, followed by exactly `height + 1` horizontal lines, the `j`-th
from `(0, j * (CELL_SIZE + 1) + 1)` to `(canvas.width, j * (CELL_SIZE + 1) + 1)`;
the `i`-th vertical line has the abscissa of the left edge of the cells of
column `i` and the `j`-th horizontal line the ordinate of the top edge of the
cells of row `j`, where the rectangles of the cells are those that `drawCells`
paints, so each line lies at the far side of the 1px gap after the previous
column or row, not inside it; and the last line of each family lies on
`canvas.width`, respectively `canvas.height`. -/
theorem drawGrid_lines {σ : Type} (U : Universe σ) (width height : Nat) (p : Page σ)
    (st : PathState) (style : String) (i j : Nat) :
    strokedSegments st (ctxOps (callsSince p (drawGrid width height p)))
        = (List.range (width + 1)).map (fun (i : Nat) =>
            (⟨i * (CELL_SIZE + 1) + 1, 0, i * (CELL_SIZE + 1) + 1, canvasHeight height⟩ :
              Segment))
          ++ (List.range (height + 1)).map (fun (j : Nat) =>
            (⟨0, j * (CELL_SIZE + 1) + 1, canvasWidth width, j * (CELL_SIZE + 1) + 1⟩ :
              Segment))
    ∧ ((List.range (width + 1)).map (fun (i : Nat) =>
            (⟨i * (CELL_SIZE + 1) + 1, 0, i * (CELL_SIZE + 1) + 1, canvasHeight height⟩ :
              Segment))).length = width + 1
    ∧ ((List.range (height + 1)).map (fun (j : Nat) =>
            (⟨0, j * (CELL_SIZE + 1) + 1, canvasWidth width, j * (CELL_SIZE + 1) + 1⟩ :
              Segment))).length = height + 1
    ∧ (paintedRects style (ctxOps (callsSince p (drawCells U width height p)))).map Prod.snd
        = (List.range (width * height)).map (fun k => cellRect (k / width) (k % width))
    ∧ (i : ℚ) * (CELL_SIZE + 1) + 1 = (cellRect j i).x
    ∧ (j : ℚ) * (CELL_SIZE + 1) + 1 = (cellRect j i).y
    ∧ ((i + 1 : Nat) : ℚ) * (CELL_SIZE + 1) + 1 = (cellRect j i).right + 1
    ∧ ((j + 1 : Nat) : ℚ) * (CELL_SIZE + 1) + 1 = (cellRect j i).bottom + 1
    ∧ (width : ℚ) * (CELL_SIZE + 1) + 1 = canvasWidth width
    ∧ (height : ℚ) * (CELL_SIZE + 1) + 1 = canvasHeight height := by
  refine ⟨?_, by simp, by simp, paintedRects_drawCells_rects U width height p style, rfl, rfl,
    ?_, ?_, ?_, ?_⟩
  · unfold drawGrid
    rw [callsSince_emit, ctxOps_append, ctxOps_append, ctxOps_append, ctxOps_flatMap,
      ctxOps_flatMap]
    have h1 : ctxOps [Call.ctx CanvasOp.beginPath, Call.ctx (CanvasOp.strokeStyle GRID_COLOR)]
        = [CanvasOp.beginPath, CanvasOp.strokeStyle GRID_COLOR] := rfl
    have h2 : ctxOps [Call.ctx CanvasOp.stroke] = [CanvasOp.stroke] := rfl
    rw [h1, h2]
    have hbody1 : (fun (x : Nat) => ctxOps
        [Call.ctx (CanvasOp.moveTo (x * (CELL_SIZE + 1) + 1) 0),
          Call.ctx (CanvasOp.lineTo (x * (CELL_SIZE + 1) + 1) ((CELL_SIZE + 1) * height + 1))])
        = (fun (x : Nat) => [CanvasOp.moveTo (x * (CELL_SIZE + 1) + 1) 0,
          CanvasOp.lineTo (x * (CELL_SIZE + 1) + 1) ((CELL_SIZE + 1) * height + 1)]) := rfl
    have hbody2 : (fun (x : Nat) => ctxOps
        [Call.ctx (CanvasOp.moveTo 0 (x * (CELL_SIZE + 1) + 1)),
          Call.ctx (CanvasOp.lineTo ((CELL_SIZE + 1) * width + 1) (x * (CELL_SIZE + 1) + 1))])
        = (fun (x : Nat) => [CanvasOp.moveTo 0 (x * (CELL_SIZE + 1) + 1),
          CanvasOp.lineTo ((CELL_SIZE + 1) * width + 1) (x * (CELL_SIZE + 1) + 1)]) := rfl
    rw [hbody1, hbody2, List.append_assoc, List.append_assoc]
    have hstart : ∀ tail : List CanvasOp,
        strokedSegments st ([CanvasOp.beginPath, CanvasOp.strokeStyle GRID_COLOR] ++ tail)
          = strokedSegments ⟨[], none⟩ tail := fun _ => rfl
    rw [hstart]
    obtain ⟨pen2, h3⟩ := strokedSegments_lines (List.range (width + 1))
      (fun i => (i : ℚ) * (CELL_SIZE + 1) + 1) (fun _ => 0)
      (fun i => (i : ℚ) * (CELL_SIZE + 1) + 1) (fun _ => (CELL_SIZE + 1) * height + 1)
      ((List.range (height + 1)).flatMap (fun j =>
        [CanvasOp.moveTo 0 ((j : ℚ) * (CELL_SIZE + 1) + 1),
          CanvasOp.lineTo ((CELL_SIZE + 1) * width + 1) ((j : ℚ) * (CELL_SIZE + 1) + 1)])
        ++ [CanvasOp.stroke]) [] none
    rw [h3]
    obtain ⟨pen3, h4⟩ := strokedSegments_lines (List.range (height + 1))
      (fun _ => 0) (fun j => (j : ℚ) * (CELL_SIZE + 1) + 1)
      (fun _ => (CELL_SIZE + 1) * width + 1) (fun j => (j : ℚ) * (CELL_SIZE + 1) + 1)
      [CanvasOp.stroke]
      ([] ++ (List.range (width + 1)).map (fun (i : Nat) =>
        (⟨(i : ℚ) * (CELL_SIZE + 1) + 1, 0, (i : ℚ) * (CELL_SIZE + 1) + 1,
          (CELL_SIZE + 1) * height + 1⟩ : Segment))) pen2
    rw [h4]
    simp [strokedSegments, canvasHeight, canvasWidth]
  · simp only [cellRect, Rect.right, CELL_SIZE]
    push_cast
    ring
  · simp only [cellRect, Rect.bottom, CELL_SIZE]
    push_cast
    ring
  · unfold canvasWidth
    ring
  · unfold canvasHeight
    ring

/-! ## Frames and runs of the program -/

theorem drawGrid_calls {σ : Type} (width height : Nat) (p : Page σ) :
    (drawGrid width height p).calls = p.calls ++ gridCalls width height := by
  simp [drawGrid, gridCalls, Page.emit]

theorem drawCells_calls {σ : Type} (U : Universe σ) (width height : Nat) (p : Page σ) :
    (drawCells U width height p).calls = p.calls ++ cellsCalls U width height p.simulation := by
  simp [drawCells, cellsCalls, Page.emit]

theorem drawAnt_calls {σ : Type} (U : Universe σ) (width height : Nat) (p : Page σ) :
    (drawAnt U width height p).calls = p.calls ++ antCalls U width height p.simulation := by
  unfold antCalls drawAnt
  by_cases h : Uint32Array (U.memory p.simulation) (U.ant p.simulation) 3 0 ≥ height
      ∨ Uint32Array (U.memory p.simulation) (U.ant p.simulation) 3 1 ≥ width
  · simp [h, Page.emit]
  · simp [h, Page.emit]

theorem drawGrid_simulation {σ : Type} (width height : Nat) (p : Page σ) :
    (drawGrid width height p).simulation = p.simulation := rfl

theorem drawCells_simulation {σ : Type} (U : Universe σ) (width height : Nat) (p : Page σ) :
    (drawCells U width height p).simulation = p.simulation := rfl

theorem drawAnt_simulation {σ : Type} (U : Universe σ) (width height : Nat) (p : Page σ) :
    (drawAnt U width height p).simulation = p.simulation := by
  unfold drawAnt
  by_cases h : Uint32Array (U.memory p.simulation) (U.ant p.simulation) 3 0 ≥ height
      ∨ Uint32Array (U.memory p.simulation) (U.ant p.simulation) 3 1 ≥ width
  · simp [h, Page.emit]
  · simp [h, Page.emit]

theorem renderLoop_calls {σ : Type} (U : Universe σ) (width height : Nat) (p : Page σ) :
    (renderLoop U width height p).calls = p.calls ++ frameCalls U width height p.simulation := by
  unfold renderLoop frameCalls
  simp only [Page.emit, drawAnt_calls, drawCells_calls, drawGrid_calls, drawCells_simulation,
    drawGrid_simulation]
  simp

theorem renderLoop_simulation {σ : Type} (U : Universe σ) (width height : Nat) (p : Page σ) :
    (renderLoop U width height p).simulation = U.tick p.simulation := by
  unfold renderLoop
  simp only [Page.emit, drawAnt_simulation, drawCells_simulation, drawGrid_simulation]

theorem startUp_calls {σ : Type} (U : Universe σ) :
    (startUp U).calls
      = [Call.universeNew, Call.universeWidth, Call.universeHeight,
          Call.canvasHeight (canvasHeight (U.height U.new)),
          Call.canvasWidth (canvasWidth (U.width U.new))]
        ++ gridCalls (U.width U.new) (U.height U.new)
        ++ cellsCalls U (U.width U.new) (U.height U.new) U.new
        ++ antCalls U (U.width U.new) (U.height U.new) U.new
        ++ [Call.setTimeout 1000] := by
  unfold startUp
  simp only [Page.emit, drawAnt_calls, drawCells_calls, drawGrid_calls, drawCells_simulation,
    drawGrid_simulation]

theorem startUp_simulation {σ : Type} (U : Universe σ) : (startUp U).simulation = U.new := by
  unfold startUp
  simp only [Page.emit, drawAnt_simulation, drawCells_simulation, drawGrid_simulation]

theorem run_simulation {σ : Type} (U : Universe σ) (n : Nat) :
    (run U n).simulation = U.tick^[n] U.new := by
  induction n with
  | zero => exact startUp_simulation U
  | succ n ih =>
    rw [run, renderLoop_simulation, ih, Function.iterate_succ_apply']

theorem run_calls_succ {σ : Type} (U : Universe σ) (n : Nat) :
    (run U (n + 1)).calls
      = (run U n).calls ++ frameCalls U (U.width U.new) (U.height U.new) (U.tick^[n] U.new) := by
  rw [run, renderLoop_calls, run_simulation]

theorem fresh_append (l1 l2 : List Call) (h1 : Fresh l1) (h2 : Fresh l2) :
    Fresh (l1 ++ l2) := by
  intro pre c post f hsplit hf
  rcases List.append_eq_append_iff.mp hsplit with ⟨m, hpre, hl2⟩ | ⟨m, hl1, hrest⟩
  · -- the call lies in `l2`
    obtain ⟨a, b, hm, hb⟩ := h2 m c post f hl2 hf
    refine ⟨l1 ++ a, b, ?_, hb⟩
    rw [hpre, hm, List.append_assoc]
  · -- the call lies in `l1`, or is the head of `l2`
    cases m with
    | nil =>
      simp only [List.nil_append] at hrest
      simp only [List.append_nil] at hl1
      obtain ⟨a, b, hm, hb⟩ := h2 [] c post f (by simpa using hrest.symm) hf
      simp at hm
    | cons x m =>
      simp only [List.cons_append, List.cons.injEq] at hrest
      obtain ⟨hx, _⟩ := hrest
      subst hx
      exact h1 pre _ m f hl1 hf

theorem fresh_of_no_view (l : List Call) (h : ∀ c ∈ l, fetchOf c = none) : Fresh l := by
  intro pre c post f hsplit hf
  have hc : c ∈ l := by rw [hsplit]; simp
  rw [h c hc] at hf
  cases hf

theorem fresh_block (f0 : Call) (t : List Call) (h0 : fetchOf f0 = none)
    (ht : ∀ c ∈ t, c ≠ Call.universeTick ∧ ∀ f, fetchOf c = some f → f = f0) :
    Fresh (f0 :: t) := by
  intro pre c post f hsplit hf
  cases pre with
  | nil =>
    simp only [List.nil_append, List.cons.injEq] at hsplit
    rw [← hsplit.1, h0] at hf
    cases hf
  | cons x pre =>
    simp only [List.cons_append, List.cons.injEq] at hsplit
    obtain ⟨hx, hrest⟩ := hsplit
    have hc : c ∈ t := by rw [hrest]; simp
    have hff : f = f0 := (ht c hc).2 f hf
    refine ⟨[], pre, ?_, ?_⟩
    · rw [hff, ← hx]; rfl
    · intro hmem
      have hin : Call.universeTick ∈ t := by rw [hrest]; simp [hmem]
      exact (ht _ hin).1 rfl

theorem gridCalls_ctx (width height : Nat) :
    ∀ c ∈ gridCalls width height, ∃ op, c = Call.ctx op := by
  intro c hc
  simp only [gridCalls, drawGrid, Page.emit, List.nil_append, List.mem_append, List.mem_cons,
    List.mem_flatMap, List.mem_range, List.mem_singleton, List.not_mem_nil, or_false] at hc
  rcases hc with (((h | h) | ⟨_, _, h | h⟩) | ⟨_, _, h | h⟩) | h <;> exact ⟨_, h⟩

theorem cellsCalls_eq {σ : Type} (U : Universe σ) (width height : Nat) (s : σ) :
    cellsCalls U width height s
      = Call.universeCells (U.cells s)
        :: ([Call.newUint8Array (U.cells s) (width * height), Call.ctx CanvasOp.beginPath]
          ++ (List.range height).flatMap (fun row =>
              (List.range width).flatMap (fun col =>
                drawCell width (U.cells s) (Uint8Array (U.memory s) (U.cells s) (width * height))
                  row col))
          ++ [Call.ctx CanvasOp.stroke]) := by
  simp [cellsCalls, drawCells, Page.emit]

theorem cellsCalls_tail {σ : Type} (U : Universe σ) (width height : Nat) (s : σ) :
    ∀ c ∈ [Call.newUint8Array (U.cells s) (width * height), Call.ctx CanvasOp.beginPath]
          ++ (List.range height).flatMap (fun row =>
              (List.range width).flatMap (fun col =>
                drawCell width (U.cells s) (Uint8Array (U.memory s) (U.cells s) (width * height))
                  row col))
          ++ [Call.ctx CanvasOp.stroke],
      c.onUniverse = false ∧ c ≠ Call.universeTick
        ∧ ∀ f, fetchOf c = some f → f = Call.universeCells (U.cells s) := by
  intro c hc
  simp only [drawCell, List.mem_append, List.mem_cons, List.mem_flatMap, List.mem_range,
    List.mem_singleton, List.not_mem_nil, or_false] at hc
  rcases hc with ((h | h) | ⟨_, _, _, _, h | h | h⟩) | h <;> subst h <;>
    refine ⟨rfl, by simp, ?_⟩ <;> intro f hf <;> simp [fetchOf] at hf <;> exact hf.symm

theorem antCalls_eq {σ : Type} (U : Universe σ) (width height : Nat) (s : σ) :
    antCalls U width height s
      = Call.universeAnt (U.ant s)
        :: ([Call.newUint32Array (U.ant s) 3, Call.readUint32 (U.ant s) 0,
              Call.readUint32 (U.ant s) 1, Call.readUint32 (U.ant s) 2]
          ++ (ctxOps (antCalls U width height s)).map Call.ctx) := by
  unfold antCalls drawAnt
  by_cases h : Uint32Array (U.memory s) (U.ant s) 3 0 ≥ height
      ∨ Uint32Array (U.memory s) (U.ant s) 3 1 ≥ width
  · simp [h, Page.emit, ctxOps]
  · simp [h, Page.emit, ctxOps]

theorem antCalls_tail {σ : Type} (U : Universe σ) (ops : List CanvasOp) (s : σ) :
    ∀ c ∈ [Call.newUint32Array (U.ant s) 3, Call.readUint32 (U.ant s) 0,
              Call.readUint32 (U.ant s) 1, Call.readUint32 (U.ant s) 2]
          ++ ops.map Call.ctx,
      c.onUniverse = false ∧ c ≠ Call.universeTick
        ∧ ∀ f, fetchOf c = some f → f = Call.universeAnt (U.ant s) := by
  intro c hc
  simp only [List.mem_append, List.mem_cons, List.mem_map, List.not_mem_nil, or_false] at hc
  rcases hc with (h | h | h | h) | ⟨_, _, h⟩ <;> subst h <;>
    refine ⟨rfl, by simp, ?_⟩ <;> intro f hf <;> simp [fetchOf] at hf <;> exact hf.symm

theorem fresh_gridCalls (width height : Nat) : Fresh (gridCalls width height) := by
  apply fresh_of_no_view
  intro c hc
  obtain ⟨op, hop⟩ := gridCalls_ctx width height c hc
  rw [hop]
  rfl

theorem fresh_cellsCalls {σ : Type} (U : Universe σ) (width height : Nat) (s : σ) :
    Fresh (cellsCalls U width height s) := by
  rw [cellsCalls_eq]
  exact fresh_block _ _ rfl (fun c hc =>
    ⟨(cellsCalls_tail U width height s c hc).2.1, (cellsCalls_tail U width height s c hc).2.2⟩)

theorem fresh_antCalls {σ : Type} (U : Universe σ) (width height : Nat) (s : σ) :
    Fresh (antCalls U width height s) := by
  rw [antCalls_eq]
  exact fresh_block _ _ rfl (fun c hc =>
    ⟨(antCalls_tail U _ s c hc).2.1, (antCalls_tail U _ s c hc).2.2⟩)

theorem fresh_frameCalls {σ : Type} (U : Universe σ) (width height : Nat) (s : σ) :
    Fresh (frameCalls U width height s) := by
  have h : frameCalls U width height s
      = [Call.universeTick] ++ gridCalls width height ++ cellsCalls U width height (U.tick s)
        ++ antCalls U width height (U.tick s) ++ [Call.setTimeout 400] := by
    simp [frameCalls]
  rw [h]
  refine fresh_append _ _ (fresh_append _ _ (fresh_append _ _ (fresh_append _ _ ?_
    (fresh_gridCalls _ _)) (fresh_cellsCalls _ _ _ _)) (fresh_antCalls _ _ _ _)) ?_
  · exact fresh_of_no_view _ (fun c hc => by
      rw [List.mem_singleton.mp hc]
      rfl)
  · exact fresh_of_no_view _ (fun c hc => by
      rw [List.mem_singleton.mp hc]
      rfl)

theorem fresh_startUp {σ : Type} (U : Universe σ) : Fresh (startUp U).calls := by
  rw [startUp_calls]
  refine fresh_append _ _ (fresh_append _ _ (fresh_append _ _ (fresh_append _ _ ?_
    (fresh_gridCalls _ _)) (fresh_cellsCalls _ _ _ _)) (fresh_antCalls _ _ _ _)) ?_
  · apply fresh_of_no_view
    intro c hc
    simp only [List.mem_cons, List.mem_singleton, List.not_mem_nil, or_false] at hc
    rcases hc with h | h | h | h | h <;> rw [h] <;> rfl
  · exact fresh_of_no_view _ (fun c hc => by
      rw [List.mem_singleton.mp hc]
      rfl)

theorem fresh_run {σ : Type} (U : Universe σ) (n : Nat) : Fresh (run U n).calls := by
  induction n with
  | zero => exact fresh_startUp U
  | succ n ih =>
    rw [run_calls_succ]
    exact fresh_append _ _ ih (fresh_frameCalls _ _ _ _)

theorem split_at_getElem? {α : Type} (l : List α) (k : Nat) (c : α) (h : l[k]? = some c) :
    l = l.take k ++ c :: l.drop (k + 1) := by
  obtain ⟨hk, hc⟩ := List.getElem?_eq_some.mp h
  rw [← hc, ← List.drop_eq_getElem_cons hk, List.take_append_drop]

theorem universeCalls_append (xs ys : List Call) :
    universeCalls (xs ++ ys) = universeCalls xs ++ universeCalls ys := by
  simp [universeCalls]

theorem universeCalls_eq_nil (l : List Call) (h : ∀ c ∈ l, c.onUniverse = false) :
    universeCalls l = [] := by
  unfold universeCalls
  rw [List.filter_eq_nil_iff]
  intro c hc
  simp [h c hc]

theorem universeCalls_gridCalls (width height : Nat) :
    universeCalls (gridCalls width height) = [] := by
  apply universeCalls_eq_nil
  intro c hc
  obtain ⟨op, hop⟩ := gridCalls_ctx width height c hc
  rw [hop]
  rfl

theorem universeCalls_cellsCalls {σ : Type} (U : Universe σ) (width height : Nat) (s : σ) :
    universeCalls (cellsCalls U width height s) = [Call.universeCells (U.cells s)] := by
  rw [cellsCalls_eq, ← List.singleton_append, universeCalls_append,
    universeCalls_eq_nil _ (fun c hc => (cellsCalls_tail U width height s c hc).1)]
  rfl

theorem universeCalls_antCalls {σ : Type} (U : Universe σ) (width height : Nat) (s : σ) :
    universeCalls (antCalls U width height s) = [Call.universeAnt (U.ant s)] := by
  rw [antCalls_eq, ← List.singleton_append, universeCalls_append,
    universeCalls_eq_nil _ (fun c hc => (antCalls_tail U _ s c hc).1)]
  rfl

theorem universeCalls_frameCalls {σ : Type} (U : Universe σ) (width height : Nat) (s : σ) :
    universeCalls (frameCalls U width height s)
      = [Call.universeTick, Call.universeCells (U.cells (U.tick s)),
          Call.universeAnt (U.ant (U.tick s))] := by
  have h : frameCalls U width height s
      = [Call.universeTick] ++ gridCalls width height ++ cellsCalls U width height (U.tick s)
        ++ antCalls U width height (U.tick s) ++ [Call.setTimeout 400] := by
    simp [frameCalls]
  rw [h]
  simp only [universeCalls_append, universeCalls_gridCalls, universeCalls_cellsCalls,
    universeCalls_antCalls]
  rfl

theorem universeCalls_startUp {σ : Type} (U : Universe σ) :
    universeCalls (startUp U).calls
      = [Call.universeNew, Call.universeWidth, Call.universeHeight,
          Call.universeCells (U.cells U.new), Call.universeAnt (U.ant U.new)] := by
  rw [startUp_calls]
  simp only [universeCalls_append, universeCalls_gridCalls, universeCalls_cellsCalls,
    universeCalls_antCalls]
  rfl

theorem universeCalls_run {σ : Type} (U : Universe σ) (n : Nat) :
    universeCalls (run U n).calls
      = [Call.universeNew, Call.universeWidth, Call.universeHeight,
          Call.universeCells (U.cells U.new), Call.universeAnt (U.ant U.new)]
        ++ (List.range n).flatMap (fun k =>
          [Call.universeTick, Call.universeCells (U.cells (U.tick^[k + 1] U.new)),
            Call.universeAnt (U.ant (U.tick^[k + 1] U.new))]) := by
  induction n with
  | zero => simpa using universeCalls_startUp U
  | succ n ih =>
    rw [run_calls_succ, universeCalls_append, ih, universeCalls_frameCalls, List.range_succ,
      List.flatMap_append, List.append_assoc]
    simp [Function.iterate_succ_apply']

theorem callsSince_of_append {σ : Type} (p q : Page σ) (cs : List Call)
    (h : q.calls = p.calls ++ cs) : callsSince p q = cs := by
  simp [callsSince, h]

theorem count_universeCalls (l : List Call) (c : Call) (hc : c.onUniverse = true) :
    l.count c = (universeCalls l).count c := by
  unfold universeCalls
  rw [List.count_filter hc]

theorem count_tick_run {σ : Type} (U : Universe σ) (n : Nat) :
    (run U n).calls.count Call.universeTick = n := by
  induction n with
  | zero =>
    rw [count_universeCalls _ Call.universeTick rfl]
    show (universeCalls (startUp U).calls).count Call.universeTick = 0
    rw [universeCalls_startUp]
    simp
  | succ n ih =>
    rw [run_calls_succ, List.count_append, ih, count_universeCalls (frameCalls _ _ _ _) Call.universeTick rfl,
      universeCalls_frameCalls]
    simp

theorem count_once_run {σ : Type} (U : Universe σ) (n : Nat) (c : Call)
    (hc : c = Call.universeNew ∨ c = Call.universeWidth ∨ c = Call.universeHeight) :
    (run U n).calls.count c = 1 := by
  have hon : c.onUniverse = true := by
    rcases hc with h | h | h <;> rw [h] <;> rfl
  induction n with
  | zero =>
    rw [count_universeCalls _ _ hon]
    show (universeCalls (startUp U).calls).count c = 1
    rw [universeCalls_startUp]
    rcases hc with h | h | h <;> rw [h] <;> simp
  | succ n ih =>
    rw [run_calls_succ, List.count_append, ih, count_universeCalls (frameCalls _ _ _ _) _ hon,
      universeCalls_frameCalls]
    rcases hc with h | h | h <;> rw [h] <;> simp

theorem startUp_no_tick {σ : Type} (U : Universe σ) :
    Call.universeTick ∉ (startUp U).calls := by
  intro h
  have h2 : Call.universeTick ∈ universeCalls (startUp U).calls := by
    unfold universeCalls
    exact List.mem_filter.mpr ⟨h, rfl⟩
  rw [universeCalls_startUp] at h2
  simp at h2

/-- C4, as amended: every frame of `renderLoop` starts with `tick()`, then runs
`drawGrid`, `drawCells` and `drawAnt` on the ticked state, and its calls on the
simulation object are `tick()`, `cells()`, `ant()` in this order, each once; the
start-up frame calls `new()`, `width()`, `height()`, `cells()`, `ant()` and no
`tick()`; over the whole run the calls on the simulation object are those of
the start-up frame followed by `tick()`, `cells()`, `ant()` for each later frame,
and `width()` and `height()` are called exactly once. -/
theorem renderLoop_ticks_first {σ : Type} (U : Universe σ) (width height : Nat) (p : Page σ)
    (n : Nat) :
    callsSince p (renderLoop U width height p)
        = Call.universeTick :: (gridCalls width height
            ++ cellsCalls U width height (U.tick p.simulation)
            ++ antCalls U width height (U.tick p.simulation) ++ [Call.setTimeout 400])
    ∧ universeCalls (callsSince p (renderLoop U width height p))
        = [Call.universeTick, Call.universeCells (U.cells (U.tick p.simulation)),
            Call.universeAnt (U.ant (U.tick p.simulation))]
    ∧ universeCalls (startUp U).calls
        = [Call.universeNew, Call.universeWidth, Call.universeHeight,
            Call.universeCells (U.cells U.new), Call.universeAnt (U.ant U.new)]
    ∧ Call.universeTick ∉ (startUp U).calls
    ∧ universeCalls (run U n).calls
        = [Call.universeNew, Call.universeWidth, Call.universeHeight,
            Call.universeCells (U.cells U.new), Call.universeAnt (U.ant U.new)]
          ++ (List.range n).flatMap (fun k =>
            [Call.universeTick, Call.universeCells (U.cells (U.tick^[k + 1] U.new)),
              Call.universeAnt (U.ant (U.tick^[k + 1] U.new))])
    ∧ (run U n).calls.count Call.universeWidth = 1
    ∧ (run U n).calls.count Call.universeHeight = 1 := by
  have hframe : callsSince p (renderLoop U width height p)
      = frameCalls U width height p.simulation :=
    callsSince_of_append _ _ _ (renderLoop_calls U width height p)
  refine ⟨?_, ?_, universeCalls_startUp U, startUp_no_tick U, universeCalls_run U n,
    count_once_run U n _ (Or.inr (Or.inl rfl)), count_once_run U n _ (Or.inr (Or.inr rfl))⟩
  · rw [hframe]
    rfl
  · rw [hframe, universeCalls_frameCalls]

/-- Counterexample to C4 as stated: the start-up frame of the program over
`demoUniverse` paints (it fills the six cell rectangles and the glyph), its
calls on the simulation object are `new()`, `width()`, `height()`, `cells()`,
`ant()`, and no `tick()` is among its calls. -/
theorem startUp_paints_without_tick :
    (paintedRects "" (ctxOps (startUp demoUniverse).calls)).length = 6
    ∧ (filledPaths (ctxOps (startUp demoUniverse).calls)).length = 1
    ∧ universeCalls (startUp demoUniverse).calls
        = [Call.universeNew, Call.universeWidth, Call.universeHeight,
            Call.universeCells 16, Call.universeAnt 0]
    ∧ Call.universeTick ∉ (startUp demoUniverse).calls := by
  refine ⟨by decide, by decide, by decide, by decide⟩

/-- C5: in every run of the program, every typed-array view and every read through
one is based on a pointer fetched since the last tick: if the `k`-th call of the
run is `c` and `c` is a view or a read whose pointer comes from the call `f`
(`universe.cells()` or `universe.ant()` returning that pointer), then the calls
before it split as `a ++ f :: b` with no `tick()` in `b`. Moreover every
invocation of `drawCells` and of `drawAnt` starts by fetching the pointer and
building the view on it. -/
theorem reads_use_fresh_pointer {σ : Type} (U : Universe σ) (width height : Nat) (p : Page σ)
    (n k : Nat) (c f : Call)
    (hk : (run U n).calls[k]? = some c) (hf : fetchOf c = some f) :
    (∃ a b, (run U n).calls.take k = a ++ f :: b ∧ Call.universeTick ∉ b)
    ∧ (callsSince p (drawCells U width height p)).take 2
        = [Call.universeCells (U.cells p.simulation),
            Call.newUint8Array (U.cells p.simulation) (width * height)]
    ∧ (callsSince p (drawAnt U width height p)).take 2
        = [Call.universeAnt (U.ant p.simulation),
            Call.newUint32Array (U.ant p.simulation) 3] := by
  refine ⟨?_, ?_, ?_⟩
  · exact fresh_run U n _ c _ f (split_at_getElem? _ k c hk) hf
  · rw [callsSince_of_append _ _ _ (drawCells_calls U width height p), cellsCalls_eq]
    rfl
  · rw [callsSince_of_append _ _ _ (drawAnt_calls U width height p), antCalls_eq]
    rfl

/-- Witness of C5: call number 73 of the run of `demoUniverse` with one frame after
start-up is the read of the first cell byte in that frame, through the pointer
16 returned by `cells()`. -/
theorem reads_use_fresh_pointer_witness :
    ((run demoUniverse 1).calls[73]? = some (Call.readUint8 16 0)
      ∧ fetchOf (Call.readUint8 16 0) = some (Call.universeCells 16))
    ∧ ∃ a b, (run demoUniverse 1).calls.take 73 = a ++ Call.universeCells 16 :: b
        ∧ Call.universeTick ∉ b :=
  ⟨⟨by decide, rfl⟩,
    (reads_use_fresh_pointer demoUniverse 3 2 demoPage 1 73 (Call.readUint8 16 0)
      (Call.universeCells 16) (by decide) rfl).1⟩

/-- C6: `drawGrid`, `drawCells` and `drawAnt` leave the state of the simulation
as it is, so the linear memory, the cell buffer and the agent triple are the
same after the three of them as before; `drawGrid` makes no call on the
simulation object, `drawCells` only `cells()` and `drawAnt` only `ant()`;
`renderLoop` changes the state by exactly one `tick`, the start-up frame leaves
it as constructed, and after `n` frames the state is the `n`-fold tick of the
initial state, with exactly `n` calls of `tick()` in the log. -/
theorem draws_read_only {σ : Type} (U : Universe σ) (width height : Nat) (p : Page σ)
    (n : Nat) :
    (drawGrid width height p).simulation = p.simulation
    ∧ (drawCells U width height p).simulation = p.simulation
    ∧ (drawAnt U width height p).simulation = p.simulation
    ∧ U.memory (drawAnt U width height
          (drawCells U width height (drawGrid width height p))).simulation
        = U.memory p.simulation
    ∧ Uint8Array (U.memory (drawAnt U width height
          (drawCells U width height (drawGrid width height p))).simulation)
          (U.cells (drawAnt U width height
            (drawCells U width height (drawGrid width height p))).simulation) (width * height)
        = Uint8Array (U.memory p.simulation) (U.cells p.simulation) (width * height)
    ∧ Uint32Array (U.memory (drawAnt U width height
          (drawCells U width height (drawGrid width height p))).simulation)
          (U.ant (drawAnt U width height
            (drawCells U width height (drawGrid width height p))).simulation) 3
        = Uint32Array (U.memory p.simulation) (U.ant p.simulation) 3
    ∧ universeCalls (callsSince p (drawGrid width height p)) = []
    ∧ universeCalls (callsSince p (drawCells U width height p))
        = [Call.universeCells (U.cells p.simulation)]
    ∧ universeCalls (callsSince p (drawAnt U width height p))
        = [Call.universeAnt (U.ant p.simulation)]
    ∧ (renderLoop U width height p).simulation = U.tick p.simulation
    ∧ (startUp U).simulation = U.new
    ∧ (run U n).simulation = U.tick^[n] U.new
    ∧ (run U n).calls.count Call.universeTick = n := by
  have hsim : (drawAnt U width height
      (drawCells U width height (drawGrid width height p))).simulation = p.simulation := by
    rw [drawAnt_simulation, drawCells_simulation, drawGrid_simulation]
  refine ⟨drawGrid_simulation width height p, drawCells_simulation U width height p,
    drawAnt_simulation U width height p, by rw [hsim], by rw [hsim], by rw [hsim], ?_, ?_, ?_,
    renderLoop_simulation U width height p, startUp_simulation U, run_simulation U n,
    count_tick_run U n⟩
  · rw [callsSince_of_append _ _ _ (drawGrid_calls width height p), universeCalls_gridCalls]
  · rw [callsSince_of_append _ _ _ (drawCells_calls U width height p),
      universeCalls_cellsCalls]
  · rw [callsSince_of_append _ _ _ (drawAnt_calls U width height p), universeCalls_antCalls]

end LangtonAnt
